import Mathlib

/-!
Verification of the natural-language specification of
`logitech-g-mouse-profiler` (`src/mouse.py`) against a shallow Lean
embedding of its code.

Modelling conventions:
* Python strings are Lean `String`s; filesystem paths are `String`s.
* The external tool's replies are supplied explicitly (one `String`
  per invocation), so each parsing routine becomes a pure function of
  the reply text.
* A Python exception is a value of `PyError`; a routine that can raise
  returns `Except PyError _` (or an `Option` when only one failure
  mode exists).
* Each regular expression of the source is embedded as a hand-written
  matcher that follows Python `re.match` semantics (anchored at the
  start, `.` never matches a newline, greedy quantifiers with
  backtracking, alternatives tried left to right, a match need not
  reach the end of the string).
* The mutable model directory (the pickle file and `default.sh`) is an
  explicit `ModelDir` state threaded through the profile-store
  operations.
-/

deriving instance DecidableEq for Except

/-- Python exceptions that the embedded code can raise. -/
inductive PyError where
  | valueError
  | attributeError
  | unpicklingError
  | indexError
deriving DecidableEq

/-! ## Small Python string primitives -/

/-- Python `str.lower` restricted to ASCII (every input the claims use
is ASCII). -/
def pyLowerChar (c : Char) : Char :=
  if 'A' ≤ c ∧ c ≤ 'Z' then Char.ofNat (c.toNat + 32) else c

/-- Python `str.lower` on a whole string. -/
def pyLower (s : String) : String :=
  String.mk (s.toList.map pyLowerChar)

/-- The whitespace characters recognised by Python `str.strip` (ASCII
subset). -/
def pyIsSpace (c : Char) : Bool :=
  c = ' ' || c = '\t' || c = '\n' || c = '\x0d' || c = '\x0b' || c = '\x0c'

/-- Python `str.strip()`: drop leading and trailing whitespace. -/
def pyStrip (s : String) : String :=
  String.mk (((s.toList.dropWhile pyIsSpace).reverse.dropWhile pyIsSpace).reverse)

/-- Decimal value of a digit list (most significant first). -/
def digitsToNat (cs : List Char) : Nat :=
  cs.foldl (fun acc c => 10 * acc + (c.toNat - 48)) 0

/-- Python `int(s)`: optional surrounding whitespace, optional sign,
then a nonempty run of digits; `none` models `ValueError`. -/
def pyInt (s : String) : Option Int :=
  let cs := (pyStrip s).toList
  match cs with
  | '-' :: ds =>
      if ds ≠ [] ∧ ds.all Char.isDigit then some (-(digitsToNat ds : Int)) else none
  | '+' :: ds =>
      if ds ≠ [] ∧ ds.all Char.isDigit then some (digitsToNat ds : Int) else none
  | ds =>
      if ds ≠ [] ∧ ds.all Char.isDigit then some (digitsToNat ds : Int) else none

/-- Python `str.replace(c, r)` for a single-character needle: every
occurrence of `c` is replaced by `r`, all other characters kept. -/
def pyReplaceChar (c : Char) (r : String) (s : String) : String :=
  String.mk (s.toList.flatMap (fun a => if a = c then r.toList else [a]))

/-! ## The device-listing regex `([a-z-]+):.*(G\d{3}|G Pro).*`
(`get_mouse_alias_and_model`, src/mouse.py line 32) -/

/-- Character class `[a-z-]` of the alias group. -/
def isAliasChar (c : Char) : Bool :=
  ('a' ≤ c && c ≤ 'z') || c = '-'

/-- `G\d{3}` at the head of the list: `G` followed by three digits. -/
def gNumAt : List Char → Option (List Char)
  | 'G' :: a :: b :: c :: _ =>
      if a.isDigit && b.isDigit && c.isDigit then some ['G', a, b, c] else none
  | _ => none

/-- Literal `G Pro` at the head of the list. -/
def gProAt : List Char → Option (List Char)
  | 'G' :: ' ' :: 'P' :: 'r' :: 'o' :: _ => some ['G', ' ', 'P', 'r', 'o']
  | _ => none

/-- The alternation `(G\d{3}|G Pro)` at the head of the list,
left alternative first. -/
def gTokenAt (cs : List Char) : Option (List Char) :=
  match gNumAt cs with
  | some t => some t
  | none => gProAt cs

/-- Capture of group 2: the greedy `.*` before the alternation makes
the regex engine keep the rightmost position at which an alternative
matches, so the captured token is the last one in the line. -/
def lastGToken : List Char → Option (List Char)
  | [] => none
  | c :: rest =>
      match lastGToken rest with
      | some t => some t
      | none => gTokenAt (c :: rest)

/-- `re.match` of the mouse-listing pattern on a character list: a
nonempty `[a-z-]` run from position 0, then `:`, then the last G-token
of the current line (`.` does not cross a newline, hence the
`takeWhile`); returns the raw groups `(alias, model)`. -/
def reMouseMatchL (cs : List Char) : Option (String × String) :=
  let aliasCs := cs.takeWhile isAliasChar
  match cs.dropWhile isAliasChar with
  | c :: tail =>
      if aliasCs ≠ [] ∧ c = ':' then
        match lastGToken (tail.takeWhile (fun ch => ch ≠ '\n')) with
        | some tok => some (String.mk aliasCs, String.mk tok)
        | none => none
      else none
  | [] => none

/-- `re.match` of the mouse-listing pattern: the raw groups
`(alias, model)` before lower-casing; `none` when the match fails. -/
def reMouseMatch (s : String) : Option (String × String) :=
  reMouseMatchL s.toList

/-- `get_mouse_alias_and_model` (src/mouse.py lines 23-36) applied to
the captured `ratbagctl list` output: lower-cased `(alias, model)` on
a match, `none` for the `AttributeError` (`NoDeviceFound`) raised on
`mouse_mo.group(1)` when the match failed. -/
def get_mouse_alias_and_model (rbc_out : String) : Option (String × String) :=
  match reMouseMatch rbc_out with
  | some (a, m) => some (pyLower a, pyLower m)
  | none => none

/-! ## The resolution regex `\d:\s(\d{,5})dpi.*`
(`Mouse.read_active_profile`, src/mouse.py line 156) -/

/-- Literal `dpi` at the head of the list. -/
def isDpiAt : List Char → Bool
  | 'd' :: 'p' :: 'i' :: _ => true
  | _ => false

/-- Greedy `(\d{,5})dpi`: try the longest digit prefix first (at most
`k` digits), backtracking until the literal `dpi` follows. -/
def resTryDigits (rest : List Char) : Nat → Option (List Char)
  | 0 => if isDpiAt rest then some [] else none
  | k + 1 =>
      if isDpiAt (rest.drop (k + 1)) then some (rest.take (k + 1))
      else resTryDigits rest k

/-- `re.match` of the resolution pattern: digit, `:`, one whitespace,
up to five captured digits, literal `dpi`; returns group 1. -/
def resMatch (s : String) : Option String :=
  match s.toList with
  | d :: ':' :: sp :: rest =>
      if d.isDigit && pyIsSpace sp then
        let run := (rest.takeWhile Char.isDigit).length
        match resTryDigits rest (min 5 run) with
        | some g => some (String.mk g)
        | none => none
      else none
  | _ => none

/-! ## The button regex `.*'(.*)'.*`
(`Mouse.read_active_profile`, src/mouse.py line 169) -/

/-- The ASCII single-quote character. -/
def squote : Char := Char.ofNat 39

/-- `re.match` of the button pattern on the (stripped) reply: both
greedy `.*`s confine the match to the first line and push the capture
between the last two single quotes of that line; `none` when the line
holds fewer than two quotes. -/
def btnMatch (s : String) : Option String :=
  let line := s.toList.takeWhile (fun c => c ≠ '\n')
  let rev := line.reverse
  match rev.dropWhile (fun c => c ≠ squote) with
  | [] => none
  | _ :: afterLast =>
      let mid := afterLast.takeWhile (fun c => c ≠ squote)
      if afterLast.length = mid.length then none
      else some (String.mk mid.reverse)

/-- The chained `.replace` calls of src/mouse.py lines 175-177:
`↕ → KEY_`, `↓ → +KEY_`, `↑ → -KEY_`. -/
def btnNormalize (s : String) : String :=
  pyReplaceChar '↑' "-KEY_" (pyReplaceChar '↓' "+KEY_" (pyReplaceChar '↕' "KEY_" s))

/-- Simultaneous per-character reading of the three replacements: each
directional marker becomes its literal prefix, every other character
stays itself. -/
def bindingCharNorm (c : Char) : String :=
  if c = '↕' then "KEY_"
  else if c = '↓' then "+KEY_"
  else if c = '↑' then "-KEY_"
  else String.mk [c]

/-! ## The LED regex
`LED: (\d), depth: rgb, mode: (on|off|cycle|breathing), color: (\w{6})|, duration: (\d{,5}), brightness: (\d{,3})`
(`Mouse.read_active_profile`, src/mouse.py lines 182-183).
The `|` splits the pattern into two top-level alternatives, so a match
populates either groups 1-3 or groups 4-5, never all five. -/

/-- Python `\w`: word character (ASCII subset). -/
def isWordChar (c : Char) : Bool :=
  c.isAlphanum || c = '_'

/-- Literal `, color: ` followed by exactly six captured word
characters. -/
def ledColorPart (cs : List Char) : Option String :=
  let lit := [',', ' ', 'c', 'o', 'l', 'o', 'r', ':', ' ']
  if lit.isPrefixOf cs then
    let t := (cs.drop lit.length).take 6
    if t.length = 6 && t.all isWordChar then some (String.mk t) else none
  else none

/-- The mode alternation `(on|off|cycle|breathing)`: alternatives in
order, backtracking into the next alternative when the continuation
(`, color: …`) fails. -/
def ledTryModes : List (List Char) → List Char → Option (String × String)
  | [], _ => none
  | m :: ms, cs =>
      if m.isPrefixOf cs then
        match ledColorPart (cs.drop m.length) with
        | some col => some (String.mk m, col)
        | none => ledTryModes ms cs
      else ledTryModes ms cs

/-- First alternative of the LED pattern:
`LED: (\d), depth: rgb, mode: (on|off|cycle|breathing), color: (\w{6})`. -/
def ledMatchA (cs : List Char) : Option (String × String × String) :=
  match cs with
  | 'L' :: 'E' :: 'D' :: ':' :: ' ' :: d :: rest =>
      if d.isDigit then
        let lit := [',', ' ', 'd', 'e', 'p', 't', 'h', ':', ' ', 'r', 'g', 'b',
                    ',', ' ', 'm', 'o', 'd', 'e', ':', ' ']
        if lit.isPrefixOf rest then
          match ledTryModes [['o', 'n'], ['o', 'f', 'f'],
              ['c', 'y', 'c', 'l', 'e'],
              ['b', 'r', 'e', 'a', 't', 'h', 'i', 'n', 'g']] (rest.drop lit.length) with
          | some (m, col) => some (String.mk [d], m, col)
          | none => none
        else none
      else none
  | _ => none

/-- One attempt of the second alternative's tail with exactly `n`
duration digits: the literal `, brightness: ` must follow them; the
brightness group then greedily takes up to three digits. -/
def ledAttempt (rest : List Char) (n : Nat) : Option (String × String) :=
  let lit := [',', ' ', 'b', 'r', 'i', 'g', 'h', 't', 'n', 'e', 's', 's', ':', ' ']
  if lit.isPrefixOf (rest.drop n) then
    let after := (rest.drop n).drop lit.length
    let bri := (after.takeWhile Char.isDigit).take 3
    some (String.mk (rest.take n), String.mk bri)
  else none

/-- Greedy `(\d{,5}), brightness: (\d{,3})` tail of the second
alternative: longest digit prefix of at most `k` digits such that the
literal `, brightness: ` follows; then up to three captured digits. -/
def ledTryDuration (rest : List Char) : Nat → Option (String × String)
  | 0 => ledAttempt rest 0
  | j + 1 =>
      match ledAttempt rest (j + 1) with
      | some r => some r
      | none => ledTryDuration rest j

/-- Second alternative of the LED pattern:
`, duration: (\d{,5}), brightness: (\d{,3})` anchored at the start. -/
def ledMatchB (cs : List Char) : Option (String × String) :=
  let lit := [',', ' ', 'd', 'u', 'r', 'a', 't', 'i', 'o', 'n', ':', ' ']
  if lit.isPrefixOf cs then
    let rest := cs.drop lit.length
    let run := (rest.takeWhile Char.isDigit).length
    ledTryDuration rest (min 5 run)
  else none

/-- A value of `led_mo.groups()`: one `Option` per capture group. -/
abbrev LedTuple :=
  Option String × Option String × Option String × Option String × Option String

/-- `re.match` of the whole LED pattern: the first alternative wins
when it matches at position 0, otherwise the second is tried; the
groups of the untaken alternative are `None`. -/
def ledMatch (s : String) : Option LedTuple :=
  let cs := s.toList
  match ledMatchA cs with
  | some (d, m, col) => some (some d, some m, some col, none, none)
  | none =>
      match ledMatchB cs with
      | some (dur, bri) => some (none, none, none, some dur, some bri)
      | none => none

/-! ## The indexed-resource scan loops
(`while True: … if mo: append; idx += 1 else: break`, src/mouse.py
lines 157-166 and 185-192).  The Python loop is unbounded; the `fuel`
parameter caps the number of probes, and every theorem below supplies
enough fuel to reach the first non-matching index. -/

/-- The probe-until-failure loop shared by the resolution scan and the
LED scan: query index `i`, extract with the matcher while it succeeds,
stop at the first non-match. -/
def scanLoop {α : Type} (m : String → Option α) (resp : Nat → String) :
    Nat → Nat → List α
  | 0, _ => []
  | fuel + 1, i =>
      match m (resp i) with
      | some a => a :: scanLoop m resp fuel (i + 1)
      | none => []

/-- The button loop of src/mouse.py lines 168-178, from index `i` with
`k` probes left: a reply whose (stripped) text has no quoted binding
makes `btn_mo.group(1)` raise `AttributeError`. -/
def buttonGo (resp : Nat → String) : Nat → Nat → Except PyError (List String)
  | _, 0 => .ok []
  | i, k + 1 =>
      match btnMatch (pyStrip (resp i)) with
      | none => .error .attributeError
      | some g =>
          match buttonGo resp (i + 1) k with
          | .ok rest => .ok (btnNormalize g :: rest)
          | .error e => .error e

/-- The button scan: exactly `button_count` queries (`for i in
range(self.button_count)`), never probe-until-failure. -/
def buttonScan (button_count : Nat) (resp : Nat → String) :
    Except PyError (List String) :=
  buttonGo resp 0 button_count

/-- The adapter replies a snapshot consumes: the `rate get` reply and
one reply per index for `resolution <i> get`, `button <i> get` and
`led <i> get`. -/
structure AdapterResponses where
  rate : String
  res : Nat → String
  btn : Nat → String
  led : Nat → String

/-- The dict returned by `Mouse.read_active_profile`: the report rate
passed through `int(…)`, the resolution group strings (the source
never converts them to integers), the normalized button strings, and
the raw `groups()` tuples of the LED regex. -/
structure MouseProfile where
  report_rate : Int
  resolutions : List String
  buttons : List String
  leds : List LedTuple
deriving DecidableEq

/-- `Mouse.read_active_profile` (src/mouse.py lines 145-201) for a
device with `button_count` buttons, against the given adapter
replies. -/
def read_active_profile (button_count : Nat) (r : AdapterResponses)
    (fuel : Nat) : Except PyError MouseProfile :=
  match pyInt r.rate with
  | none => .error .valueError
  | some rate =>
      let resolutions := scanLoop resMatch r.res fuel 0
      match buttonScan button_count r.btn with
      | .error e => .error e
      | .ok buttons =>
          let leds := scanLoop ledMatch r.led fuel 0
          .ok ⟨rate, resolutions, buttons, leds⟩

/-! ## Profile store (src/mouse.py lines 51-116) -/

/-- Contents of the model directory's pickle file, as far as
`pickle.load` distinguishes them: missing (`FileNotFoundError`), empty
(`EOFError`), invalid bytes (`pickle.UnpicklingError`, which the
source does not catch), or a successfully serialized path. -/
inductive PickleContent where
  | absent
  | empty
  | corrupt
  | stored (p : String)
deriving DecidableEq

/-- The mutable state of one model directory: its pickle file and
whether `default.sh` exists.  (`load_pickled_profile` reads the file
`fp / "<fp.name>.pickle"` and `cycle_profile` writes
`folder / "<model>.pickle"`; with `folder = … / "models" / model`
these name the same file, the one modelled here.) -/
structure ModelDir where
  pickle : PickleContent
  defaultSh : Bool
deriving DecidableEq

/-- The default profile reference `fp / "default.sh"`. -/
def default_profile_path (fp : String) : String := fp ++ "/default.sh"

/-- `load_pickled_profile` (src/mouse.py lines 83-104): returns the
directory state after the call together with the loaded path or the
escaped exception.  Only `FileNotFoundError` and `EOFError` are
caught; the handler touches the pickle file (leaving it empty) and
touches `default.sh`. -/
def load_pickled_profile (fp : String) (d : ModelDir) :
    ModelDir × Except PyError String :=
  match d.pickle with
  | .stored p => (d, .ok p)
  | .corrupt => (d, .error .unpicklingError)
  | .absent => (⟨.empty, true⟩, .ok (default_profile_path fp))
  | .empty => (⟨.empty, true⟩, .ok (default_profile_path fp))

/-- `save_pickled_profile` (src/mouse.py lines 107-116): overwrite the
pickle file with the given profile path. -/
def save_pickled_profile (d : ModelDir) (profile_fp : String) : ModelDir :=
  { d with pickle := .stored profile_fp }

/-- `get_all_shell_scripts_in` (src/mouse.py lines 51-62) on the list
of file names present in the model directory: `sorted(fp.glob("*.sh"))`,
i.e. the names with the `.sh` extension in ascending lexicographic
order. -/
def get_all_shell_scripts_in (names : List String) : List String :=
  List.insertionSort (· ≤ ·) (names.filter (fun n => n.endsWith ".sh"))

/-- Python `list.index` (src/mouse.py line 209): index of the first
occurrence, `none` for the `ValueError` raised when absent. -/
def listIndexOf (l : List String) (a : String) : Option Nat :=
  match l with
  | [] => none
  | b :: t => if b = a then some 0 else (listIndexOf t a).map (· + 1)

/-- `Mouse.cycle_profile` (src/mouse.py lines 203-220): load the
persisted profile, find its index in the discovered list, take the
next entry (an `IndexError` past the end wraps to index 0), run the
new script, persist it.  Returns the directory state after the call,
the scripts executed during it, and the new profile or the escaped
exception. -/
def cycle_profile (profiles : List String) (folder : String) (d : ModelDir) :
    ModelDir × List String × Except PyError String :=
  match load_pickled_profile folder d with
  | (d1, .error e) => (d1, [], .error e)
  | (d1, .ok cur) =>
      match listIndexOf profiles cur with
      | none => (d1, [], .error .valueError)
      | some idx =>
          match profiles.get? (idx + 1) with
          | some nxt => (save_pickled_profile d1 nxt, [nxt], .ok nxt)
          | none =>
              match profiles.get? 0 with
              | some nxt => (save_pickled_profile d1 nxt, [nxt], .ok nxt)
              | none => (d1, [], .error .indexError)

/-- The model-directory state after one `cycle_profile` call. -/
def cycleStep (profiles : List String) (folder : String) (d : ModelDir) :
    ModelDir :=
  (cycle_profile profiles folder d).1

/-- `n` consecutive `cycle_profile` calls, tracking only the
model-directory state. -/
def iterCycle (profiles : List String) (folder : String) :
    Nat → ModelDir → ModelDir
  | 0, d => d
  | n + 1, d => iterCycle profiles folder n (cycleStep profiles folder d)

/-! ## Concrete adapter replies used to evaluate the snapshot -/

/-- A `rate get` reply. -/
def snapshotRateReply : String := "1000"

/-- `resolution <i> get` replies: a real reply for slot 0, then the
tool's out-of-range text, which the resolution regex does not match. -/
def snapshotResReply : Nat → String :=
  fun i => if i = 0 then "0:\t1000dpi @ 1000Hz (active)" else "Resolution 1 does not exist"

/-- `button <i> get` replies for a one-button device. -/
def snapshotBtnReply : Nat → String :=
  fun _ => "Button: 0 is mapped to 'button1'"

/-- `led <i> get` replies: a full LED descriptor line for slot 0, then
out-of-range text, which the LED regex does not match. -/
def snapshotLedReply : Nat → String :=
  fun i =>
    if i = 0 then
      "LED: 0, depth: rgb, mode: on, color: ff0000, duration: 1000, brightness: 255"
    else "LED 1 does not exist"

/-! ## Helper lemmas -/

theorem listIndexOf_eq_none (l : List String) (a : String) (h : a ∉ l) :
    listIndexOf l a = none := by
  induction l with
  | nil => rfl
  | cons b t ih =>
      simp only [List.mem_cons, not_or] at h
      have hba : ¬ b = a := fun hba => h.1 hba.symm
      simp [listIndexOf, hba, ih h.2]

theorem listIndexOf_get (l : List String) (hnd : l.Nodup) (i : Nat)
    (hi : i < l.length) : listIndexOf l (l.get ⟨i, hi⟩) = some i := by
  induction l generalizing i with
  | nil => exact absurd hi (Nat.not_lt_zero i)
  | cons b t ih =>
      rcases List.nodup_cons.mp hnd with ⟨hb, ht⟩
      cases i with
      | zero => simp [listIndexOf]
      | succ j =>
          have hj : j < t.length := Nat.lt_of_succ_lt_succ hi
          have hne : ¬ b = t.get ⟨j, hj⟩ := by
            intro hba
            exact hb (hba ▸ List.get_mem t j hj)
          show (if b = t.get ⟨j, hj⟩ then some 0
              else (listIndexOf t (t.get ⟨j, hj⟩)).map (· + 1)) = some (j + 1)
          rw [if_neg hne, ih ht j hj]
          rfl

/-! ## Claim theorems -/

/-- C2: when the persisted active profile is not a member of the
discovered profile list, `cycle_profile` fails (the `ValueError` of
`list.index`, the spec's `ProfileNotFound`), executes no profile
script, and leaves the model directory — in particular the persisted
pickle file — unchanged. -/
theorem cycle_profile_missing_active (profiles : List String) (folder : String)
    (d : ModelDir) (p : String) (hd : d.pickle = .stored p) (hp : p ∉ profiles) :
    cycle_profile profiles folder d = (d, [], .error .valueError) := by
  obtain ⟨pk, ds⟩ := d
  simp only at hd
  subst hd
  simp only [cycle_profile, load_pickled_profile, listIndexOf_eq_none profiles p hp]

theorem cycle_profile_missing_active_witness :
    cycle_profile ["a.sh", "b.sh"] "models/g403" ⟨.stored "zz.sh", true⟩
      = (⟨.stored "zz.sh", true⟩, [], .error .valueError) :=
  cycle_profile_missing_active ["a.sh", "b.sh"] "models/g403"
    ⟨.stored "zz.sh", true⟩ "zz.sh" rfl (by decide)

/-- C5 counterexample: a persisted-state file with corrupt (non-empty,
non-pickle) contents makes `load_pickled_profile` raise
`pickle.UnpicklingError` — only `FileNotFoundError` and `EOFError` are
caught — instead of returning the default profile reference, so the
claim's "absent or unreadable/corrupt" case does not hold for corrupt
contents. -/
theorem load_pickled_profile_corrupt_raises :
    load_pickled_profile "models/g403" ⟨.corrupt, false⟩
      = (⟨.corrupt, false⟩, .error .unpicklingError) := rfl

/-- C5 (amended): when the persisted-state file is absent or empty,
`load_pickled_profile` creates the empty placeholder state file and an
empty `default.sh`, and returns the default profile reference without
raising. -/
theorem load_pickled_profile_absent_or_empty (fp : String) (b : Bool) :
    load_pickled_profile fp ⟨.absent, b⟩
        = (⟨.empty, true⟩, .ok (default_profile_path fp)) ∧
      load_pickled_profile fp ⟨.empty, b⟩
        = (⟨.empty, true⟩, .ok (default_profile_path fp)) :=
  ⟨rfl, rfl⟩

/-- C8: starting with no persisted-state file, a first
`load_pickled_profile` returns the default profile reference and
leaves the empty placeholder state file behind; a second call on the
resulting directory returns the same default reference and leaves the
placeholder in place — the operation is idempotent under repetition. -/
theorem load_active_idempotent (fp : String) (b : Bool) :
    load_pickled_profile fp ⟨.absent, b⟩
        = (⟨.empty, true⟩, .ok (default_profile_path fp)) ∧
      load_pickled_profile fp (load_pickled_profile fp ⟨.absent, b⟩).1
        = ((load_pickled_profile fp ⟨.absent, b⟩).1, .ok (default_profile_path fp)) :=
  ⟨rfl, rfl⟩

/-- C3 (code behaviour at a failing input): on a realistic reply set,
the snapshot stores the resolution values as digit strings (the source
never applies `int` to them) and each matched LED line yields the
tuple `(index, mode, color, None, None)` — the stray `|` in the LED
pattern puts `duration` and `brightness` in the never-taken second
alternative, so the five components are never all populated. -/
theorem read_active_profile_unpopulated_led_groups :
    read_active_profile 1
        ⟨snapshotRateReply, snapshotResReply, snapshotBtnReply, snapshotLedReply⟩ 3
      = .ok ⟨1000, ["1000"], ["button1"],
          [(some "0", some "on", some "ff0000", none, none)]⟩ := by
  decide

/-- The scan loop from an arbitrary start index: with enough fuel,
matches at the first `k` probed indices and a non-match at the next
one produce exactly the `k` extracted entries in probe order. -/
theorem scanLoop_shifted {α : Type} (m : String → Option α) (resp : Nat → String) :
    ∀ (k s fuel : Nat), k < fuel →
      (∀ j, j < k → (m (resp (s + j))).isSome) →
      m (resp (s + k)) = none →
      (scanLoop m resp fuel s).length = k ∧
        ∀ j, j < k → (scanLoop m resp fuel s).get? j = m (resp (s + j)) := by
  intro k
  induction k with
  | zero =>
      intro s fuel hfuel _ hk
      cases fuel with
      | zero => exact absurd hfuel (Nat.lt_irrefl 0)
      | succ f =>
          have h0 : m (resp s) = none := by simpa using hk
          constructor
          · simp [scanLoop, h0]
          · intro j hj
            exact absurd hj (Nat.not_lt_zero j)
  | succ k ih =>
      intro s fuel hfuel hm hk
      cases fuel with
      | zero => exact absurd hfuel (Nat.not_lt_zero (k + 1))
      | succ f =>
          have hs : (m (resp s)).isSome := by simpa using hm 0 (Nat.succ_pos k)
          obtain ⟨a, ha⟩ := Option.isSome_iff_exists.mp hs
          have hm1 : ∀ j, j < k → (m (resp (s + 1 + j))).isSome := by
            intro j hj
            have := hm (j + 1) (Nat.succ_lt_succ hj)
            simpa [Nat.add_assoc, Nat.add_comm 1 j] using this
          have hk1 : m (resp (s + 1 + k)) = none := by
            have : s + 1 + k = s + (k + 1) := by omega
            rw [this]; exact hk
          have hrec := ih (s + 1) f (Nat.lt_of_succ_lt_succ hfuel) hm1 hk1
          have hloop : scanLoop m resp (f + 1) s = a :: scanLoop m resp f (s + 1) := by
            simp [scanLoop, ha]
          constructor
          · rw [hloop]
            simp [hrec.1]
          · intro j hj
            rw [hloop]
            cases j with
            | zero => simpa using ha.symm
            | succ j2 =>
                have hj2 : j2 < k := Nat.lt_of_succ_lt_succ hj
                have := hrec.2 j2 hj2
                have harg : s + 1 + j2 = s + (j2 + 1) := by omega
                rw [harg] at this
                simpa using this

/-- C6: an indexed-resource scan (the loop shared by the resolution
and LED scans) run against replies that match at indices `0..k-1` and
fail to match at index `k` terminates at that first non-match and
returns exactly `k` extracted entries in index order. -/
theorem scanLoop_first_non_match {α : Type} (m : String → Option α)
    (resp : Nat → String) (k fuel : Nat) (hfuel : k < fuel)
    (hm : ∀ j, j < k → (m (resp j)).isSome) (hk : m (resp k) = none) :
    (scanLoop m resp fuel 0).length = k ∧
      ∀ j, j < k → (scanLoop m resp fuel 0).get? j = m (resp j) := by
  have hm0 : ∀ j, j < k → (m (resp (0 + j))).isSome := by
    intro j hj
    simpa using hm j hj
  have hk0 : m (resp (0 + k)) = none := by simpa using hk
  have h := scanLoop_shifted m resp k 0 fuel hfuel hm0 hk0
  refine ⟨h.1, ?_⟩
  intro j hj
  have := h.2 j hj
  simpa using this

theorem scanLoop_first_non_match_witness :
    (scanLoop resMatch snapshotResReply 3 0).length = 1 ∧
      ∀ j, j < 1 → (scanLoop resMatch snapshotResReply 3 0).get? j
        = resMatch (snapshotResReply j) :=
  scanLoop_first_non_match resMatch snapshotResReply 1 3 (by decide)
    (by decide) (by decide)

/-- The button loop from index `i` with `k` probes left: a successful
pass returns one binding per probe, and any non-matching reply among
the probed indices makes the whole loop raise `AttributeError`. -/
theorem buttonGo_strict (resp : Nat → String) :
    ∀ (k i : Nat),
      (∀ bs, buttonGo resp i k = .ok bs → bs.length = k) ∧
      (∀ j, j < k → btnMatch (pyStrip (resp (i + j))) = none →
        buttonGo resp i k = .error .attributeError) := by
  intro k
  induction k with
  | zero =>
      intro i
      constructor
      · intro bs hbs
        cases hbs
        rfl
      · intro j hj
        exact absurd hj (Nat.not_lt_zero j)
  | succ k ih =>
      intro i
      constructor
      · intro bs hbs
        unfold buttonGo at hbs
        cases hmo : btnMatch (pyStrip (resp i)) with
        | none => rw [hmo] at hbs; cases hbs
        | some g =>
            rw [hmo] at hbs
            cases hrec : buttonGo resp (i + 1) k with
            | error e => rw [hrec] at hbs; cases hbs
            | ok rest =>
                rw [hrec] at hbs
                cases hbs
                have := (ih (i + 1)).1 rest hrec
                simp [this]
      · intro j hj hfail
        unfold buttonGo
        cases hmo : btnMatch (pyStrip (resp i)) with
        | none => rfl
        | some g =>
            cases j with
            | zero =>
                rw [Nat.add_zero] at hfail
                rw [hfail] at hmo
                cases hmo
            | succ j2 =>
                have hj2 : j2 < k := Nat.lt_of_succ_lt_succ hj
                have harg : i + (j2 + 1) = i + 1 + j2 := by omega
                rw [harg] at hfail
                rw [(ih (i + 1)).2 j2 hj2 hfail]

/-- C10: the snapshot's button scan performs exactly `button_count`
queries and, unlike the resolution and LED scans, treats a reply
without a quoted binding as an error (`AttributeError` from
`btn_mo.group(1)`), never as an end-of-sequence signal: a successful
result always has exactly `button_count` entries, and a non-match at
any probed slot fails the whole scan. -/
theorem buttonScan_strict (button_count : Nat) (resp : Nat → String) :
    (∀ bs, buttonScan button_count resp = .ok bs → bs.length = button_count) ∧
      (∀ i, i < button_count → btnMatch (pyStrip (resp i)) = none →
        buttonScan button_count resp = .error .attributeError) := by
  constructor
  · intro bs hbs
    exact (buttonGo_strict resp button_count 0).1 bs hbs
  · intro i hi hfail
    have hfail0 : btnMatch (pyStrip (resp (0 + i))) = none := by simpa using hfail
    exact (buttonGo_strict resp button_count 0).2 i hi hfail0

theorem buttonScan_strict_witness :
    buttonScan 2 (fun i => if i = 0 then "Button: 0 is mapped to 'button1'" else "oops")
      = .error .attributeError :=
  (buttonScan_strict 2
      (fun i => if i = 0 then "Button: 0 is mapped to 'button1'" else "oops")).2
    1 (by decide) (by decide)

/-- One character pushed through the three replacement passes equals
its simultaneous translation. -/
theorem replace_chain_char (c : Char) :
    ((if c = '↕' then "KEY_".toList else [c]).flatMap
        (fun a => if a = '↓' then "+KEY_".toList else [a])).flatMap
        (fun a => if a = '↑' then "-KEY_".toList else [a])
      = (bindingCharNorm c).toList := by
  by_cases h1 : c = '↕'
  · subst h1; decide
  by_cases h2 : c = '↓'
  · subst h2; decide
  by_cases h3 : c = '↑'
  · subst h3; decide
  simp [h1, h2, h3, bindingCharNorm]

/-- The three replacement passes over a character list equal one
simultaneous pass. -/
theorem replace_chain (l : List Char) :
    ((l.flatMap (fun a => if a = '↕' then "KEY_".toList else [a])).flatMap
        (fun a => if a = '↓' then "+KEY_".toList else [a])).flatMap
        (fun a => if a = '↑' then "-KEY_".toList else [a])
      = l.flatMap (fun c => (bindingCharNorm c).toList) := by
  induction l with
  | nil => rfl
  | cons c t ih =>
      simp only [List.flatMap_cons, List.flatMap_append]
      rw [ih, replace_chain_char c]

/-- C7: the binding-descriptor normalization replaces each key-down
marker `↕` with `KEY_`, each combo-down marker `↓` with `+KEY_` and
each key-up marker `↑` with `-KEY_`, leaving every other character
unchanged (the whole string is the character-wise translation); in
particular `↕A ↦ KEY_A`, `↓B ↦ +KEY_B`, `↑C ↦ -KEY_C`. -/
theorem btnNormalize_marker_translation :
    (∀ s : String,
        btnNormalize s = String.mk (s.toList.flatMap (fun c => (bindingCharNorm c).toList))) ∧
      btnNormalize "↕A" = "KEY_A" ∧
      btnNormalize "↓B" = "+KEY_B" ∧
      btnNormalize "↑C" = "-KEY_C" := by
  refine ⟨?_, by decide, by decide, by decide⟩
  intro s
  show String.mk
      ((String.mk ((String.mk (s.toList.flatMap
          (fun a => if a = '↕' then "KEY_".toList else [a]))).toList.flatMap
          (fun a => if a = '↓' then "+KEY_".toList else [a]))).toList.flatMap
          (fun a => if a = '↑' then "-KEY_".toList else [a]))
      = String.mk (s.toList.flatMap (fun c => (bindingCharNorm c).toList))
  exact congrArg String.mk (replace_chain s.toList)

/-- C9: profile discovery returns exactly the directory entries with
the `.sh` extension — as a list, a permutation of the `.sh` filter of
the directory listing — in ascending filename order; it is empty when
no entry has the extension, and the result is independent of the
creation (listing) order of the directory. -/
theorem get_all_shell_scripts_in_sorted (names : List String) :
    List.Sorted (· ≤ ·) (get_all_shell_scripts_in names) ∧
      (get_all_shell_scripts_in names).Perm
        (names.filter (fun n => n.endsWith ".sh")) ∧
      (names.filter (fun n => n.endsWith ".sh") = [] →
        get_all_shell_scripts_in names = []) ∧
      (∀ other : List String, other.Perm names →
        get_all_shell_scripts_in other = get_all_shell_scripts_in names) := by
  refine ⟨List.sorted_insertionSort _ _, List.perm_insertionSort _ _, ?_, ?_⟩
  · intro h
    rw [get_all_shell_scripts_in, h]
    rfl
  · intro other hperm
    refine List.eq_of_perm_of_sorted ?_
      (List.sorted_insertionSort _ _) (List.sorted_insertionSort _ _)
    have h1 : (get_all_shell_scripts_in other).Perm
        (other.filter (fun n => n.endsWith ".sh")) := List.perm_insertionSort _ _
    have h2 := hperm.filter (fun n => n.endsWith ".sh")
    have h3 : (names.filter (fun n => n.endsWith ".sh")).Perm
        (get_all_shell_scripts_in names) := (List.perm_insertionSort _ _).symm
    exact (h1.trans h2).trans h3

theorem get_all_shell_scripts_in_sorted_witness :
    List.Sorted (· ≤ ·) (get_all_shell_scripts_in ["b.sh", "a.txt", "a.sh"]) ∧
      (get_all_shell_scripts_in ["b.sh", "a.txt", "a.sh"]).Perm
        (["b.sh", "a.txt", "a.sh"].filter (fun n => n.endsWith ".sh")) :=
  ⟨(get_all_shell_scripts_in_sorted ["b.sh", "a.txt", "a.sh"]).1,
   (get_all_shell_scripts_in_sorted ["b.sh", "a.txt", "a.sh"]).2.1⟩

/-- Taking with a weaker predicate first does not change a
`takeWhile` with a stronger one. -/
theorem takeWhile_takeWhile_of_imp {α : Type} (p q : α → Bool)
    (h : ∀ c, p c = true → q c = true) :
    ∀ l : List α, (l.takeWhile q).takeWhile p = l.takeWhile p := by
  intro l
  induction l with
  | nil => rfl
  | cons c t ih =>
      cases hq : q c with
      | true =>
          cases hp : p c with
          | true => simp [List.takeWhile_cons, hq, hp, ih]
          | false => simp [List.takeWhile_cons, hq, hp]
      | false =>
          have hp : p c = false := by
            cases hpc : p c with
            | false => rfl
            | true => rw [h c hpc] at hq; cases hq
          simp [List.takeWhile_cons, hq, hp]

/-- Dropping a prefix whose predicate implies the taking predicate
commutes with `takeWhile`. -/
theorem dropWhile_takeWhile_comm {α : Type} (p q : α → Bool)
    (h : ∀ c, p c = true → q c = true) :
    ∀ l : List α, (l.takeWhile q).dropWhile p = (l.dropWhile p).takeWhile q := by
  intro l
  induction l with
  | nil => rfl
  | cons c t ih =>
      cases hp : p c with
      | true =>
          have hq : q c = true := h c hp
          simp [List.takeWhile_cons, List.dropWhile_cons, hq, hp, ih]
      | false =>
          cases hq : q c with
          | true => simp [List.takeWhile_cons, List.dropWhile_cons, hq, hp]
          | false => simp [List.takeWhile_cons, List.dropWhile_cons, hq, hp]

/-- The mouse-listing match only ever examines the first line of the
output: truncating at the first newline does not change it. -/
theorem reMouseMatchL_first_line (cs : List Char) :
    reMouseMatchL cs = reMouseMatchL (cs.takeWhile (fun c => c ≠ '\n')) := by
  have himp : ∀ c : Char, isAliasChar c = true → (decide (c ≠ '\n')) = true := by
    intro c hc
    by_cases hceq : c = '\n'
    · subst hceq; exact absurd hc (by decide)
    · simp [hceq]
  unfold reMouseMatchL
  rw [takeWhile_takeWhile_of_imp isAliasChar (fun c => decide (c ≠ '\n')) himp cs]
  rw [dropWhile_takeWhile_comm isAliasChar (fun c => decide (c ≠ '\n')) himp cs]
  cases hR : cs.dropWhile isAliasChar with
  | nil => rfl
  | cons c t =>
      rw [List.takeWhile_cons]
      by_cases hcn : c = '\n'
      · subst hcn
        rw [if_neg (by decide : ¬ ((fun ch : Char => decide (ch ≠ '\n')) '\n' = true))]
        exact if_neg (fun h => absurd h.2 (by decide))
      · rw [if_pos (show (fun ch : Char => decide (ch ≠ '\n')) c = true by simp [hcn])]
        by_cases hcolon : (cs.takeWhile isAliasChar ≠ [] ∧ c = ':')
        · show (if cs.takeWhile isAliasChar ≠ [] ∧ c = ':' then _ else none)
            = (if cs.takeWhile isAliasChar ≠ [] ∧ c = ':' then _ else none)
          rw [if_pos hcolon, if_pos hcolon]
          rw [takeWhile_takeWhile_of_imp (fun ch : Char => decide (ch ≠ '\n'))
            (fun ch : Char => decide (ch ≠ '\n')) (fun _ hh => hh) t]
        · show (if cs.takeWhile isAliasChar ≠ [] ∧ c = ':' then _ else none)
            = (if cs.takeWhile isAliasChar ≠ [] ∧ c = ':' then _ else none)
          rw [if_neg hcolon, if_neg hcolon]

/-- C4 counterexample: the source anchors the pattern with `re.match`
(no `re.MULTILINE`), so a listing whose first line does not match is
rejected even though a later line — here the exact scenario line —
matches the per-line pattern; the claim's "fails exactly when no line
of the output matches" is false at this input. -/
theorem get_mouse_alias_and_model_skips_later_lines :
    get_mouse_alias_and_model "x: y\nsleeping-puppy: Wireless Gaming Mouse G403"
        = none ∧
      reMouseMatch "sleeping-puppy: Wireless Gaming Mouse G403"
        = some ("sleeping-puppy", "G403") ∧
      "x: y\nsleeping-puppy: Wireless Gaming Mouse G403"
        = "x: y" ++ "\n" ++ "sleeping-puppy: Wireless Gaming Mouse G403" := by
  refine ⟨by decide, by decide, by decide⟩

/-- C4 (amended): identify-device matches only at the start of the
device-listing output, so only its first line can ever match: the
scenario output yields alias `sleeping-puppy` and model `g403`,
truncating the output at its first newline never changes the result,
and the `NoDeviceFound` failure happens exactly when the anchored
match at the start of the output fails. -/
theorem get_mouse_alias_and_model_first_line_only :
    get_mouse_alias_and_model "sleeping-puppy: Wireless Gaming Mouse G403"
        = some ("sleeping-puppy", "g403") ∧
      (∀ out : String, get_mouse_alias_and_model out
          = get_mouse_alias_and_model
              (String.mk (out.toList.takeWhile (fun c => c ≠ '\n')))) ∧
      (∀ out : String,
        get_mouse_alias_and_model out = none ↔ reMouseMatch out = none) := by
  refine ⟨by decide, ?_, ?_⟩
  · intro out
    show (match reMouseMatchL out.toList with
        | some (a, m) => some (pyLower a, pyLower m)
        | none => none)
      = (match reMouseMatchL (out.toList.takeWhile (fun c => c ≠ '\n')) with
        | some (a, m) => some (pyLower a, pyLower m)
        | none => none)
    rw [← reMouseMatchL_first_line out.toList]
  · intro out
    unfold get_mouse_alias_and_model
    cases reMouseMatch out with
    | none => simp
    | some g =>
        obtain ⟨a, m⟩ := g
        simp

/-- One `cycle_profile` call from a state whose persisted profile sits
at index `i` of a duplicate-free profile list: the profile at index
`(i + 1) % length` is selected, executed and persisted. -/
theorem cycle_step_formula (profiles : List String) (folder : String)
    (d : ModelDir) (i : Nat) (hi : i < profiles.length) (hnd : profiles.Nodup)
    (hd : d.pickle = .stored (profiles.get ⟨i, hi⟩)) :
    cycle_profile profiles folder d =
      (⟨.stored (profiles.getD ((i + 1) % profiles.length) ""), d.defaultSh⟩,
       [profiles.getD ((i + 1) % profiles.length) ""],
       .ok (profiles.getD ((i + 1) % profiles.length) "")) := by
  obtain ⟨pk, ds⟩ := d
  simp only at hd
  subst hd
  have hidx := listIndexOf_get profiles hnd i hi
  by_cases hlt : i + 1 < profiles.length
  · have hmod : (i + 1) % profiles.length = i + 1 := Nat.mod_eq_of_lt hlt
    have hget2 : profiles.get? (i + 1) = some (profiles.get ⟨i + 1, hlt⟩) :=
      List.get?_eq_get hlt
    have hgetD : profiles.getD (i + 1) "" = profiles.get ⟨i + 1, hlt⟩ := by
      simp [List.getD_eq_getElem?_getD, ← List.get?_eq_getElem?, hget2]
    simp only [cycle_profile, load_pickled_profile, hidx, hget2, hmod, hgetD,
      save_pickled_profile]
  · have hpos : 0 < profiles.length := Nat.lt_of_le_of_lt (Nat.zero_le i) hi
    have heq : i + 1 = profiles.length := by omega
    have hmod : (i + 1) % profiles.length = 0 := by
      rw [heq]; exact Nat.mod_self _
    have hnone : profiles.get? (i + 1) = none := by
      rw [List.get?_eq_none]
      omega
    have hget0 : profiles.get? 0 = some (profiles.get ⟨0, hpos⟩) :=
      List.get?_eq_get hpos
    have hgetD : profiles.getD 0 "" = profiles.get ⟨0, hpos⟩ := by
      simp [List.getD_eq_getElem?_getD, ← List.get?_eq_getElem?, hget0]
    simp only [cycle_profile, load_pickled_profile, hidx, hnone, hget0, hmod,
      hgetD, save_pickled_profile]

/-- Iterating `cycle_profile` rotates the persisted index modulo the
list length and touches nothing else in the directory state. -/
theorem iterCycle_rotation (profiles : List String) (folder : String)
    (hnd : profiles.Nodup) :
    ∀ (k : Nat) (d : ModelDir) (i : Nat) (hi : i < profiles.length),
      d.pickle = .stored (profiles.get ⟨i, hi⟩) →
      iterCycle profiles folder k d
        = ⟨.stored (profiles.getD ((i + k) % profiles.length) ""), d.defaultSh⟩ := by
  intro k
  induction k with
  | zero =>
      intro d i hi hd
      obtain ⟨pk, ds⟩ := d
      simp only at hd
      subst hd
      have hmod : (i + 0) % profiles.length = i := by
        rw [Nat.add_zero]; exact Nat.mod_eq_of_lt hi
      have hgetD : profiles.getD i "" = profiles.get ⟨i, hi⟩ := by
        simp [List.getD_eq_getElem?_getD, ← List.get?_eq_getElem?, List.get?_eq_get hi]
      show (⟨.stored (profiles.get ⟨i, hi⟩), ds⟩ : ModelDir)
          = ⟨.stored (profiles.getD ((i + 0) % profiles.length) ""), ds⟩
      rw [hmod, hgetD]
  | succ k ih =>
      intro d i hi hd
      have hpos : 0 < profiles.length := Nat.lt_of_le_of_lt (Nat.zero_le i) hi
      have hi1 : (i + 1) % profiles.length < profiles.length := Nat.mod_lt _ hpos
      have hstep1 : cycleStep profiles folder d
          = ⟨.stored (profiles.getD ((i + 1) % profiles.length) ""), d.defaultSh⟩ := by
        unfold cycleStep
        rw [cycle_step_formula profiles folder d i hi hnd hd]
      have hd1 : (⟨.stored (profiles.getD ((i + 1) % profiles.length) ""),
            d.defaultSh⟩ : ModelDir).pickle
          = .stored (profiles.get ⟨(i + 1) % profiles.length, hi1⟩) := by
        simp only
        congr 1
        simp [List.getD_eq_getElem?_getD, ← List.get?_eq_getElem?, List.get?_eq_get hi1]
      have hrec := ih _ ((i + 1) % profiles.length) hi1 hd1
      show iterCycle profiles folder k (cycleStep profiles folder d) = _
      rw [hstep1, hrec]
      have hmod2 : ((i + 1) % profiles.length + k) % profiles.length
          = (i + (k + 1)) % profiles.length := by
        rw [Nat.mod_add_mod]
        congr 1
        omega
      rw [hmod2]

/-- C1: from a session state whose persisted active profile sits at
index `i` of the duplicate-free discovered list, `cycle_profile`
selects, executes and persists the profile at index
`(i + 1) % length`; consequently `length` consecutive calls return the
persisted state — hence the active profile — to where it started. -/
theorem cycle_profile_advances_mod (profiles : List String) (folder : String)
    (d : ModelDir) (i : Nat) (hi : i < profiles.length) (hnd : profiles.Nodup)
    (hd : d.pickle = .stored (profiles.getD i "")) :
    cycle_profile profiles folder d =
      (⟨.stored (profiles.getD ((i + 1) % profiles.length) ""), d.defaultSh⟩,
       [profiles.getD ((i + 1) % profiles.length) ""],
       .ok (profiles.getD ((i + 1) % profiles.length) "")) ∧
      iterCycle profiles folder profiles.length d = d := by
  have hgetD : profiles.getD i "" = profiles.get ⟨i, hi⟩ := by
    simp [List.getD_eq_getElem?_getD, ← List.get?_eq_getElem?, List.get?_eq_get hi]
  have hdg : d.pickle = .stored (profiles.get ⟨i, hi⟩) := by rw [hd, hgetD]
  refine ⟨cycle_step_formula profiles folder d i hi hnd hdg, ?_⟩
  rw [iterCycle_rotation profiles folder hnd profiles.length d i hi hdg]
  have hmod : (i + profiles.length) % profiles.length = i := by
    rw [Nat.add_mod_right]
    exact Nat.mod_eq_of_lt hi
  rw [hmod, hgetD, ← hdg]

theorem cycle_profile_advances_mod_witness :
    cycle_profile ["a.sh", "b.sh", "c.sh"] "models/g403" ⟨.stored "c.sh", true⟩
        = (⟨.stored "a.sh", true⟩, ["a.sh"], .ok "a.sh") ∧
      iterCycle ["a.sh", "b.sh", "c.sh"] "models/g403" 3 ⟨.stored "c.sh", true⟩
        = ⟨.stored "c.sh", true⟩ :=
  cycle_profile_advances_mod ["a.sh", "b.sh", "c.sh"] "models/g403"
    ⟨.stored "c.sh", true⟩ 2 (by decide) (by decide) rfl
